import Mathlib

/-!
Verification of the incident-response dashboard's analytics engine.

The definitions below are a shallow embedding of the repository's code:

* `backend/app/routes/analytics.py` — the SQL analytics queries
  (`get_top_attackers`, `get_severity_trend`, `get_recent_events`,
  `get_kpis`), embedded as functions over an in-memory list of events.
  SQL window-function semantics (`RANK`, `PERCENT_RANK`,
  `SUM ... OVER`, `AVG ... OVER ... ROWS BETWEEN 6 PRECEDING AND
  CURRENT ROW`, `LIMIT`/`OFFSET`) are spelled out as list operations.
* `backend/app/database.py` — the connection-pool plumbing
  (`execute_query`, `execute_scalar`), embedded with explicit pool
  state and `Except` for Python exceptions.
* `db/seed.py` — the synthetic-event generator, embedded with an
  explicit oracle supplying the outcomes of the `random.*` calls.

Timestamps are integers (seconds); `date_trunc('hour', ts)` becomes
floor division by 3600.  `NUMERIC` values produced by `ROUND(x, k)`
are rationals rounded at `k` decimal digits (round half away from
zero on the nonnegative values that occur here, matching PostgreSQL).
-/

/-- A row of the `security_events` table (the fields the analytics
queries read).  `timestamp` is a UTC instant in seconds. -/
structure SecurityEvent where
  eventId : String
  timestamp : Int
  sourceIp : String
  destinationIp : String
  sourcePort : Nat
  destinationPort : Nat
  protocol : String
  eventType : String
  severity : String
  severityScore : Nat
  description : String
  threatCategory : String
  actionTaken : String
  geoCountry : String
deriving DecidableEq, Repr

/-- `ROUND(q, k)` on PostgreSQL `NUMERIC`: round to `k` decimal digits. -/
def roundTo (k : Nat) (q : ℚ) : ℚ :=
  ((round (q * 10 ^ k) : ℤ) : ℚ) / 10 ^ k

namespace Analytics

/-! ### `get_top_attackers` (analytics.py lines 108–139)

The CTE `attacker_stats` groups `security_events` by `source_ip`; the
CTE `ranked` adds `RANK() OVER (ORDER BY total_events DESC)`,
`ROUND(PERCENT_RANK() OVER (ORDER BY total_events)::NUMERIC, 4)` and
`ROUND((total_events::FLOAT / SUM(total_events) OVER () * 100)::NUMERIC, 4)`;
the outer query keeps `attack_rank <= limit` and orders by
`attack_rank`. -/

/-- `GROUP BY source_ip`: one grouped row per distinct source IP. -/
def sourceIps (events : List SecurityEvent) : List String :=
  (events.map (fun e => e.sourceIp)).dedup

/-- `COUNT(*)` of the group of `ip`. -/
def totalEvents (events : List SecurityEvent) (ip : String) : Nat :=
  events.countP (fun e => decide (e.sourceIp = ip))

/-- `COUNT(*) FILTER (WHERE severity = 'critical')` of the group of `ip`. -/
def criticalEvents (events : List SecurityEvent) (ip : String) : Nat :=
  events.countP (fun e => decide (e.sourceIp = ip ∧ e.severity = "critical"))

/-- `COUNT(*) FILTER (WHERE severity = 'high')` of the group of `ip`. -/
def highEvents (events : List SecurityEvent) (ip : String) : Nat :=
  events.countP (fun e => decide (e.sourceIp = ip ∧ e.severity = "high"))

/-- `COUNT(DISTINCT event_type)` of the group of `ip`. -/
def uniqueAttackTypes (events : List SecurityEvent) (ip : String) : Nat :=
  (((events.filter (fun e => decide (e.sourceIp = ip))).map
    (fun e => e.eventType)).dedup).length

/-- `MIN(timestamp)` of the group of `ip` (`none` on an empty group). -/
def firstSeen (events : List SecurityEvent) (ip : String) : Option Int :=
  ((events.filter (fun e => decide (e.sourceIp = ip))).map
    (fun e => e.timestamp)).min?

/-- `MAX(timestamp)` of the group of `ip` (`none` on an empty group). -/
def lastSeen (events : List SecurityEvent) (ip : String) : Option Int :=
  ((events.filter (fun e => decide (e.sourceIp = ip))).map
    (fun e => e.timestamp)).max?

/-- `RANK() OVER (ORDER BY total_events DESC)`: one plus the number of
grouped rows whose total strictly exceeds this row's total. -/
def attackRank (events : List SecurityEvent) (ip : String) : Nat :=
  1 + (sourceIps events).countP
    (fun ip2 => decide (totalEvents events ip < totalEvents events ip2))

/-- `RANK() OVER (ORDER BY total_events)` (ascending), the rank inside
`PERCENT_RANK`: one plus the number of grouped rows whose total is
strictly below this row's total. -/
def ascRank (events : List SecurityEvent) (ip : String) : Nat :=
  1 + (sourceIps events).countP
    (fun ip2 => decide (totalEvents events ip2 < totalEvents events ip))

/-- `ROUND(PERCENT_RANK() OVER (ORDER BY total_events)::NUMERIC, 4)`:
`(rank - 1) / (rows - 1)`, and `0` when the window has a single row. -/
def percentile (events : List SecurityEvent) (ip : String) : ℚ :=
  if (sourceIps events).length ≤ 1 then 0
  else roundTo 4 (((ascRank events ip : ℚ) - 1) / ((sourceIps events).length - 1))

/-- `ROUND((total_events::FLOAT / SUM(total_events) OVER () * 100)::NUMERIC, 4)`. -/
def pctOfTotal (events : List SecurityEvent) (ip : String) : ℚ :=
  roundTo 4 ((totalEvents events ip : ℚ) /
    (((sourceIps events).map (totalEvents events)).sum : ℚ) * 100)

/-- A row of the `ranked` CTE. -/
structure AttackerRow where
  sourceIp : String
  totalEvents : Nat
  criticalEvents : Nat
  highEvents : Nat
  uniqueAttackTypes : Nat
  firstSeen : Option Int
  lastSeen : Option Int
  attackRank : Nat
  percentile : ℚ
  pctOfTotal : ℚ
deriving DecidableEq, Repr

/-- The `ranked` row of the group of `ip`. -/
def attackerRow (events : List SecurityEvent) (ip : String) : AttackerRow :=
  { sourceIp := ip
    totalEvents := totalEvents events ip
    criticalEvents := criticalEvents events ip
    highEvents := highEvents events ip
    uniqueAttackTypes := uniqueAttackTypes events ip
    firstSeen := firstSeen events ip
    lastSeen := lastSeen events ip
    attackRank := attackRank events ip
    percentile := percentile events ip
    pctOfTotal := pctOfTotal events ip }

/-- `get_top_attackers`: rows with `attack_rank <= limit`,
`ORDER BY attack_rank`. -/
def getTopAttackers (events : List SecurityEvent) (limit : Nat) : List AttackerRow :=
  List.insertionSort (fun a b => a.attackRank ≤ b.attackRank)
    (((sourceIps events).filter
        (fun ip => decide (attackRank events ip ≤ limit))).map
      (attackerRow events))

end Analytics

/-- An event that only fixes the fields the ranking pipeline reads. -/
def mkEvt (ip : String) (ts : Int) : SecurityEvent :=
  { eventId := "", timestamp := ts, sourceIp := ip, destinationIp := "10.0.0.1"
    sourcePort := 1024, destinationPort := 443, protocol := "TCP"
    eventType := "port_scan", severity := "low", severityScore := 1
    description := "", threatCategory := "reconnaissance"
    actionTaken := "logged", geoCountry := "US" }

/-- Three source addresses with totals 10, 10 and 5 (the spec's example). -/
def rankExample : List SecurityEvent :=
  List.replicate 10 (mkEvt "a" 0) ++ List.replicate 10 (mkEvt "b" 0) ++
    List.replicate 5 (mkEvt "c" 0)

/-- Two source addresses with one event each: a tie group that straddles
the rank boundary at limit 1. -/
def tieExample : List SecurityEvent :=
  [mkEvt "a" 0, mkEvt "b" 1]

namespace Analytics

lemma countP_or_of_disjoint {α : Type*} (p q : α → Bool) (l : List α)
    (h : ∀ a ∈ l, ¬(p a = true ∧ q a = true)) :
    l.countP (fun a => p a || q a) = l.countP p + l.countP q := by
  induction l with
  | nil => simp
  | cons x xs ih =>
    simp only [List.countP_cons]
    rw [ih (fun a ha => h a (List.mem_cons_of_mem _ ha))]
    have := h x (List.mem_cons_self _ _)
    cases hp : p x <;> cases hq : q x <;> simp_all <;> omega

lemma attackRank_eq_one_iff (events : List SecurityEvent) (ip : String) :
    attackRank events ip = 1 ↔
      ∀ ip2 ∈ sourceIps events, totalEvents events ip2 ≤ totalEvents events ip := by
  unfold attackRank
  rw [show ∀ n : Nat, (1 + n = 1 ↔ n = 0) from fun n => by omega,
    List.countP_eq_zero]
  simp [not_lt]

lemma attackRank_congr (events : List SecurityEvent) {ip ip2 : String}
    (h : totalEvents events ip = totalEvents events ip2) :
    attackRank events ip = attackRank events ip2 := by
  unfold attackRank
  simp only [h]

lemma percentile_congr (events : List SecurityEvent) {ip ip2 : String}
    (h : totalEvents events ip = totalEvents events ip2) :
    percentile events ip = percentile events ip2 := by
  unfold percentile ascRank
  simp only [h]

lemma attackRank_skip (events : List SecurityEvent) {ip ip2 : String}
    (hlt : totalEvents events ip2 < totalEvents events ip)
    (hgap : ∀ ip3 ∈ sourceIps events,
      totalEvents events ip3 ≤ totalEvents events ip2 ∨
      totalEvents events ip ≤ totalEvents events ip3) :
    attackRank events ip2 =
      attackRank events ip +
        (sourceIps events).countP
          (fun ip3 => decide (totalEvents events ip3 = totalEvents events ip)) := by
  unfold attackRank
  have hcongr : (sourceIps events).countP
      (fun ip3 => decide (totalEvents events ip2 < totalEvents events ip3)) =
      (sourceIps events).countP
        (fun ip3 => decide (totalEvents events ip < totalEvents events ip3) ||
          decide (totalEvents events ip3 = totalEvents events ip)) := by
    refine List.countP_congr (fun ip3 h3 => ?_)
    rcases hgap ip3 h3 with hle | hge
    · simp only [decide_eq_true_iff, Bool.or_eq_true]
      omega
    · simp only [decide_eq_true_iff, Bool.or_eq_true]
      omega
  rw [hcongr, countP_or_of_disjoint]
  · omega
  · intro a _
    simp only [decide_eq_true_iff]
    omega

lemma mem_getTopAttackers (events : List SecurityEvent) (L : Nat) (row : AttackerRow) :
    row ∈ getTopAttackers events L ↔
      ∃ ip ∈ sourceIps events, attackRank events ip ≤ L ∧ row = attackerRow events ip := by
  unfold getTopAttackers
  rw [(List.perm_insertionSort _ _).mem_iff, List.mem_map]
  constructor
  · rintro ⟨ip, hip, rfl⟩
    rw [List.mem_filter] at hip
    exact ⟨ip, hip.1, of_decide_eq_true hip.2, rfl⟩
  · rintro ⟨ip, hip, hrank, rfl⟩
    exact ⟨ip, List.mem_filter.mpr ⟨hip, decide_eq_true hrank⟩, rfl⟩

end Analytics

open Analytics

/-- C1: the Ranking Engine's `attack_rank` follows standard competition
RANK semantics: rank 1 is held exactly by the entities of maximum total
count, equal totals share a rank, the rank directly below a tie group
skips ahead by the size of the tie group, and the concrete example with
totals 10, 10, 5 is ranked 1, 1, 3. -/
theorem rank_competition_semantics (events : List SecurityEvent) :
    (∀ ip ∈ sourceIps events,
      (attackRank events ip = 1 ↔
        ∀ ip2 ∈ sourceIps events,
          totalEvents events ip2 ≤ totalEvents events ip)) ∧
    (∀ ip ip2 : String,
      totalEvents events ip = totalEvents events ip2 →
      attackRank events ip = attackRank events ip2) ∧
    (∀ ip ip2 : String, ip ∈ sourceIps events → ip2 ∈ sourceIps events →
      totalEvents events ip2 < totalEvents events ip →
      (∀ ip3 ∈ sourceIps events,
        totalEvents events ip3 ≤ totalEvents events ip2 ∨
        totalEvents events ip ≤ totalEvents events ip3) →
      attackRank events ip2 =
        attackRank events ip +
          (sourceIps events).countP
            (fun ip3 => decide (totalEvents events ip3 = totalEvents events ip))) ∧
    (totalEvents rankExample "a" = 10 ∧ totalEvents rankExample "b" = 10 ∧
      totalEvents rankExample "c" = 5 ∧
      attackRank rankExample "a" = 1 ∧ attackRank rankExample "b" = 1 ∧
      attackRank rankExample "c" = 3) := by
  refine ⟨fun ip _ => attackRank_eq_one_iff events ip,
    fun ip ip2 h => attackRank_congr events h,
    fun ip ip2 _ _ hlt hgap => attackRank_skip events hlt hgap,
    by decide⟩

/-- Witness for C1 at the concrete 10/10/5 example. -/
theorem rank_competition_semantics_witness :
    Analytics.attackRank rankExample "a" = 1 :=
  ((rank_competition_semantics rankExample).1 "a" (by decide)).mpr (by decide)

/-- C2: the Ranking Engine's `percentile` is the percent-rank formula
`(r - 1) / (n - 1)` rounded to 4 decimal places, where `r` is the
ascending competition rank of the entity's total among the `n` grouped
entities; it is `0` when `n = 1`, and tied totals share a percentile. -/
theorem percentile_percent_rank (events : List SecurityEvent) :
    ((sourceIps events).length = 1 → ∀ ip : String, percentile events ip = 0) ∧
    (2 ≤ (sourceIps events).length → ∀ ip : String,
      percentile events ip =
        roundTo 4 (((ascRank events ip : ℚ) - 1) /
          ((sourceIps events).length - 1))) ∧
    (∀ ip : String, ascRank events ip =
      1 + (sourceIps events).countP
        (fun ip2 => decide (totalEvents events ip2 < totalEvents events ip))) ∧
    (∀ ip ip2 : String, totalEvents events ip = totalEvents events ip2 →
      percentile events ip = percentile events ip2) := by
  refine ⟨fun h1 ip => ?_, fun h2 ip => ?_, fun ip => rfl,
    fun ip ip2 h => percentile_congr events h⟩
  · unfold percentile
    rw [if_pos (by omega)]
  · unfold percentile
    rw [if_neg (by omega)]

/-- Witness for C2: the two tied entities of the 10/10/5 example share a
percentile. -/
theorem percentile_percent_rank_witness :
    Analytics.percentile rankExample "a" = Analytics.percentile rankExample "b" :=
  (percentile_percent_rank rankExample).2.2.2 "a" "b" (by decide)

/-- C6: `get_top_attackers` returns exactly the entities of rank at most
`L`, sorted by rank ascending; a whole tie group is in or out together,
and at the concrete two-way tie with `L = 1` the result holds 2 > 1
entities. -/
theorem topAttackers_limit_ties (events : List SecurityEvent) (L : Nat) :
    (∀ row : AttackerRow, row ∈ getTopAttackers events L ↔
      ∃ ip ∈ sourceIps events, attackRank events ip ≤ L ∧ row = attackerRow events ip) ∧
    (getTopAttackers events L).Pairwise (fun a b => a.attackRank ≤ b.attackRank) ∧
    (∀ ip ip2 : String, ip ∈ sourceIps events → ip2 ∈ sourceIps events →
      totalEvents events ip = totalEvents events ip2 →
      (attackerRow events ip ∈ getTopAttackers events L ↔
        attackerRow events ip2 ∈ getTopAttackers events L)) ∧
    (getTopAttackers tieExample 1).length = 2 := by
  refine ⟨mem_getTopAttackers events L, ?_, fun ip ip2 hip hip2 htot => ?_, ?_⟩
  · haveI : IsTotal AttackerRow (fun a b => a.attackRank ≤ b.attackRank) :=
      ⟨fun a b => Nat.le_total _ _⟩
    haveI : IsTrans AttackerRow (fun a b => a.attackRank ≤ b.attackRank) :=
      ⟨fun a b c => Nat.le_trans⟩
    exact List.sorted_insertionSort _ _
  · have hinj : ∀ ip3 ip4 : String,
        attackerRow events ip3 = attackerRow events ip4 → ip3 = ip4 :=
      fun ip3 ip4 h => congrArg AttackerRow.sourceIp h
    rw [mem_getTopAttackers, mem_getTopAttackers]
    constructor
    · rintro ⟨ip3, hip3, hrank, heq⟩
      have : ip = ip3 := hinj ip ip3 heq
      subst this
      exact ⟨ip2, hip2, by rw [← attackRank_congr events htot]; exact hrank, rfl⟩
    · rintro ⟨ip3, hip3, hrank, heq⟩
      have : ip2 = ip3 := hinj ip2 ip3 heq
      subst this
      exact ⟨ip, hip, by rw [attackRank_congr events htot]; exact hrank, rfl⟩
  · unfold getTopAttackers
    rw [(List.perm_insertionSort _ _).length_eq, List.length_map]
    decide

/-- Witness for C6: in the two-way tie with limit 1, the row of `"a"` is
returned. -/
theorem topAttackers_limit_ties_witness :
    Analytics.attackerRow tieExample "a" ∈ Analytics.getTopAttackers tieExample 1 :=
  ((topAttackers_limit_ties tieExample 1).1 _).mpr
    ⟨"a", by decide, by decide, rfl⟩

/-- Lexicographic comparison of character lists: the deterministic
string ordering used to embed SQL's `ORDER BY ..., severity`
tie-break. -/
def charListLE : List Char → List Char → Bool
  | [], _ => true
  | _ :: _, [] => false
  | a :: as, b :: bs =>
      if a < b then true else if b < a then false else charListLE as bs

/-- Lexicographic string comparison. -/
def strLE (a b : String) : Bool :=
  charListLE a.data b.data

namespace Analytics

/-! ### `get_severity_trend` (analytics.py lines 67–105)

The CTE `hourly_counts` groups `security_events` by
`(date_trunc('hour', timestamp), severity)` with `COUNT(*)`; the CTE
`running` adds `SUM(event_count) OVER (PARTITION BY severity ORDER BY
hour_bucket ROWS UNBOUNDED PRECEDING)` and `ROUND(AVG(event_count)
OVER (PARTITION BY severity ORDER BY hour_bucket ROWS BETWEEN 6
PRECEDING AND CURRENT ROW), 2)`; the outer query keeps
`hour_bucket >= (SELECT MAX(hour_bucket) - INTERVAL 'limit hours'
FROM hourly_counts)` and orders by `hour_bucket ASC, severity`. -/

/-- `date_trunc('hour', timestamp)`, represented as the hour index:
floor division of the second count by 3600. -/
def hourBucket (t : Int) : Int :=
  Int.fdiv t 3600

/-- The grouping keys of `hourly_counts`: the distinct
`(hour_bucket, severity)` pairs. -/
def hourlyGroups (events : List SecurityEvent) : List (Int × String) :=
  (events.map (fun e => (hourBucket e.timestamp, e.severity))).dedup

/-- `COUNT(*)` of the `(b, s)` group of `hourly_counts`. -/
def eventCount (events : List SecurityEvent) (b : Int) (s : String) : Nat :=
  events.countP (fun e => decide (hourBucket e.timestamp = b ∧ e.severity = s))

/-- The rows of the `PARTITION BY severity` window in `ORDER BY
hour_bucket` order; their buckets are distinct because the grouping
key contains the bucket. -/
def partitionBuckets (events : List SecurityEvent) (s : String) : List Int :=
  List.insertionSort (fun a b => a ≤ b)
    (((events.filter (fun e => decide (e.severity = s))).map
      (fun e => hourBucket e.timestamp)).dedup)

/-- `SUM(event_count) OVER (PARTITION BY severity ORDER BY hour_bucket
ROWS UNBOUNDED PRECEDING)`: the partition's counts summed over the
rows up to and including the current bucket. -/
def runningTotal (events : List SecurityEvent) (b : Int) (s : String) : Nat :=
  (((partitionBuckets events s).filter (fun b2 => decide (b2 ≤ b))).map
    (fun b2 => eventCount events b2 s)).sum

/-- The frame `ROWS BETWEEN 6 PRECEDING AND CURRENT ROW` of the
partition of `s` at the row of bucket `b`: the last (up to) 7
partition rows whose bucket is at most `b`. -/
def trailingWindow (events : List SecurityEvent) (b : Int) (s : String) : List Int :=
  ((partitionBuckets events s).filter (fun b2 => decide (b2 ≤ b))).drop
    (((partitionBuckets events s).filter (fun b2 => decide (b2 ≤ b))).length - 7)

/-- `ROUND(AVG(event_count) OVER (PARTITION BY severity ORDER BY
hour_bucket ROWS BETWEEN 6 PRECEDING AND CURRENT ROW), 2)`. -/
def movingAvg7h (events : List SecurityEvent) (b : Int) (s : String) : ℚ :=
  roundTo 2 (((trailingWindow events b s).map
      (fun b2 => (eventCount events b2 s : ℚ))).sum /
    ((trailingWindow events b s).length : ℚ))

/-- The largest per-bucket count of the partition of `s`. -/
def maxCount (events : List SecurityEvent) (s : String) : Nat :=
  (((partitionBuckets events s).map (fun b => eventCount events b s)).foldr max 0)

/-- A row of the `running` CTE. -/
structure TrendRow where
  hourBucket : Int
  severity : String
  eventCount : Nat
  runningTotal : Nat
  movingAvg7h : ℚ
deriving DecidableEq, Repr

/-- The `running` row of the group `p = (bucket, severity)`. -/
def trendRow (events : List SecurityEvent) (p : Int × String) : TrendRow :=
  { hourBucket := p.1
    severity := p.2
    eventCount := eventCount events p.1 p.2
    runningTotal := runningTotal events p.1 p.2
    movingAvg7h := movingAvg7h events p.1 p.2 }

/-- `SELECT MAX(hour_bucket) FROM hourly_counts` (`NULL`, i.e. `⊥`, on
an empty table). -/
def maxBucket (events : List SecurityEvent) : WithBot Int :=
  ((hourlyGroups events).map Prod.fst).maximum

/-- The `ORDER BY hour_bucket ASC, severity` comparison. -/
def trendOrder (a b : TrendRow) : Prop :=
  a.hourBucket < b.hourBucket ∨
    (a.hourBucket = b.hourBucket ∧ strLE a.severity b.severity = true)

instance : DecidableRel trendOrder := fun a b => by
  unfold trendOrder
  infer_instance

/-- `get_severity_trend`: the rows of `running` whose bucket is at or
after `MAX(hour_bucket) - INTERVAL 'limit hours'`, ordered by
`(hour_bucket, severity)`; no rows when `hourly_counts` is empty
(the comparison with `NULL` selects nothing). -/
def getSeverityTrend (events : List SecurityEvent) (limit : Nat) : List TrendRow :=
  match maxBucket events with
  | ⊥ => []
  | (m : Int) =>
      List.insertionSort trendOrder
        (((hourlyGroups events).filter
            (fun p => decide (m - (limit : Int) ≤ p.1))).map
          (trendRow events))

end Analytics

/-- Three `"low"` events, two in hour bucket 0 and one in hour
bucket 1. -/
def trendExample : List SecurityEvent :=
  [mkEvt "a" 0, mkEvt "a" 60, mkEvt "a" 3700]

namespace Analytics

lemma partitionBuckets_perm (events : List SecurityEvent) (s : String) :
    (partitionBuckets events s).Perm
      (((events.filter (fun e => decide (e.severity = s))).map
        (fun e => hourBucket e.timestamp)).dedup) :=
  List.perm_insertionSort _ _

lemma partitionBuckets_nodup (events : List SecurityEvent) (s : String) :
    (partitionBuckets events s).Nodup :=
  ((partitionBuckets_perm events s).nodup_iff).mpr (List.nodup_dedup _)

lemma partitionBuckets_sorted (events : List SecurityEvent) (s : String) :
    (partitionBuckets events s).Sorted (fun a b : Int => a ≤ b) := by
  haveI : IsTotal Int (fun a b : Int => a ≤ b) := ⟨Int.le_total⟩
  haveI : IsTrans Int (fun a b : Int => a ≤ b) := ⟨fun a b c => Int.le_trans⟩
  exact List.sorted_insertionSort _ _

lemma eventCount_eq_count (events : List SecurityEvent) (s : String) (b : Int) :
    eventCount events b s =
      ((events.filter (fun e => decide (e.severity = s))).map
        (fun e => hourBucket e.timestamp)).count b := by
  rw [List.count_eq_countP, List.countP_map, List.countP_filter]
  refine List.countP_congr (fun e _ => ?_)
  simp [Function.comp, beq_iff_eq, and_comm]

lemma sum_counts_partition (events : List SecurityEvent) (s : String) :
    ((partitionBuckets events s).map (fun b => eventCount events b s)).sum =
      events.countP (fun e => decide (e.severity = s)) := by
  have h1 : ((partitionBuckets events s).map (fun b => eventCount events b s)).sum
      = ((((events.filter (fun e => decide (e.severity = s))).map
          (fun e => hourBucket e.timestamp)).dedup).map
        (fun b => eventCount events b s)).sum :=
    ((partitionBuckets_perm events s).map _).sum_eq
  rw [h1,
    List.map_congr_left (fun b _ => eventCount_eq_count events s b),
    List.sum_map_count_dedup_eq_length, List.length_map,
    ← List.countP_eq_length_filter]

end Analytics

/-- C3: each severity partition's `running_total` is the cumulative sum
of the partition's per-bucket counts at or before the current bucket;
it is non-decreasing in the bucket, and at the partition's last bucket
it equals the partition's total event count. -/
theorem trend_running_total (events : List SecurityEvent) (s : String) :
    (∀ b : Int, runningTotal events b s =
      (((partitionBuckets events s).filter (fun b2 => decide (b2 ≤ b))).map
        (fun b2 => eventCount events b2 s)).sum) ∧
    (∀ b1 b2 : Int, b1 ≤ b2 →
      runningTotal events b1 s ≤ runningTotal events b2 s) ∧
    (∀ b ∈ partitionBuckets events s,
      (∀ b2 ∈ partitionBuckets events s, b2 ≤ b) →
      runningTotal events b s =
        events.countP (fun e => decide (e.severity = s))) := by
  refine ⟨fun b => rfl, fun b1 b2 h => ?_, fun b hb hmax => ?_⟩
  · unfold runningTotal
    refine List.Sublist.sum_le_sum ?_ (fun a _ => Nat.zero_le a)
    refine List.Sublist.map _ ?_
    refine List.monotone_filter_right _ (fun a ha => ?_)
    simp only [decide_eq_true_iff] at *
    omega
  · unfold runningTotal
    rw [List.filter_eq_self.mpr (fun b2 hb2 => decide_eq_true (hmax b2 hb2))]
    exact sum_counts_partition events s

/-- Witness for C3 at the concrete two-bucket partition: the running
total at the last bucket is the partition's total count. -/
theorem trend_running_total_witness :
    Analytics.runningTotal trendExample 1 "low" =
      trendExample.countP (fun e => decide (e.severity = "low")) :=
  (trend_running_total trendExample "low").2.2 1 (by decide) (by decide)

lemma roundTo_natCast (k n : ℕ) : roundTo k ((n : ℚ)) = n := by
  unfold roundTo
  rw [show ((n : ℚ)) * 10 ^ k = ((n * 10 ^ k : ℕ) : ℚ) by push_cast; ring,
    round_natCast]
  push_cast
  field_simp

lemma roundTo_mono (k : ℕ) {x y : ℚ} (h : x ≤ y) : roundTo k x ≤ roundTo k y := by
  unfold roundTo
  have hr : round (x * 10 ^ k) ≤ round (y * 10 ^ k) := by
    rw [round_eq, round_eq]
    refine Int.floor_mono ?_
    have : x * 10 ^ k ≤ y * 10 ^ k :=
      mul_le_mul_of_nonneg_right h (by positivity)
    linarith
  exact div_le_div_of_nonneg_right (by exact_mod_cast hr) (by positivity)

lemma le_foldr_max {l : List ℕ} {x : ℕ} (hx : x ∈ l) : x ≤ l.foldr max 0 := by
  induction l with
  | nil => cases hx
  | cons a as ih =>
    rcases List.mem_cons.mp hx with rfl | h
    · exact le_max_left _ _
    · exact le_trans (ih h) (le_max_right _ _)

namespace Analytics

lemma filter_le_head (events : List SecurityEvent) (s : String) (b : Int)
    (rest : List Int) (h : partitionBuckets events s = b :: rest) :
    (partitionBuckets events s).filter (fun b2 => decide (b2 ≤ b)) = [b] := by
  have hsorted := partitionBuckets_sorted events s
  have hnodup := partitionBuckets_nodup events s
  rw [h] at hsorted hnodup ⊢
  rw [List.sorted_cons] at hsorted
  rw [List.nodup_cons] at hnodup
  rw [List.filter_cons_of_pos (by simp)]
  rw [List.filter_eq_nil_iff.mpr ?_]
  intro x hx
  have hge : b ≤ x := hsorted.1 x hx
  simp only [decide_eq_true_iff]
  intro hle
  exact hnodup.1 (le_antisymm hle hge ▸ hx)

lemma mem_trailingWindow_self (events : List SecurityEvent) (s : String)
    {b : Int} (hb : b ∈ partitionBuckets events s) :
    0 < (trailingWindow events b s).length := by
  have hbpre : b ∈ (partitionBuckets events s).filter (fun b2 => decide (b2 ≤ b)) :=
    List.mem_filter.mpr ⟨hb, by simp⟩
  have hpos : 0 < ((partitionBuckets events s).filter
      (fun b2 => decide (b2 ≤ b))).length :=
    List.length_pos.mpr (List.ne_nil_of_mem hbpre)
  unfold trailingWindow
  rw [List.length_drop]
  omega

lemma trailingWindow_sublist (events : List SecurityEvent) (b : Int) (s : String) :
    (trailingWindow events b s).Sublist (partitionBuckets events s) :=
  (List.drop_sublist _ _).trans (List.filter_sublist _)

end Analytics

/-- C4: each severity partition's `moving_avg_7h` is the arithmetic mean
of the counts over the trailing window of at most 7 partition rows
(current bucket and up to 6 prior), rounded to 2 decimal places; at the
partition's first bucket it equals that bucket's own count, and every
moving average lies in `[0, maxCount]`, the largest per-bucket count of
the partition. -/
theorem trend_moving_avg (events : List SecurityEvent) (s : String) :
    (∀ b : Int, movingAvg7h events b s =
      roundTo 2 (((trailingWindow events b s).map
          (fun b2 => (eventCount events b2 s : ℚ))).sum /
        ((trailingWindow events b s).length : ℚ))) ∧
    (∀ b : Int, (trailingWindow events b s).length ≤ 7) ∧
    (∀ (b : Int) (rest : List Int), partitionBuckets events s = b :: rest →
      movingAvg7h events b s = (eventCount events b s : ℚ)) ∧
    (∀ b ∈ partitionBuckets events s,
      0 ≤ movingAvg7h events b s ∧
      movingAvg7h events b s ≤ (maxCount events s : ℚ)) := by
  refine ⟨fun b => rfl, fun b => ?_, fun b rest h => ?_, fun b hb => ?_⟩
  · unfold trailingWindow
    rw [List.length_drop]
    omega
  · unfold movingAvg7h trailingWindow
    rw [filter_le_head events s b rest h]
    simp [roundTo_natCast]
  · have hlen := mem_trailingWindow_self events s hb
    have hmem : ∀ x ∈ (trailingWindow events b s).map
        (fun b2 => (eventCount events b2 s : ℚ)),
        0 ≤ x ∧ x ≤ (maxCount events s : ℚ) := by
      intro x hx
      rcases List.mem_map.mp hx with ⟨b2, hb2, rfl⟩
      refine ⟨by positivity, ?_⟩
      have hb2p : b2 ∈ partitionBuckets events s :=
        (trailingWindow_sublist events b s).mem hb2
      have : eventCount events b2 s ≤ maxCount events s :=
        le_foldr_max (List.mem_map_of_mem _ hb2p)
      exact_mod_cast this
    have hlenq : 0 < ((trailingWindow events b s).length : ℚ) := by
      exact_mod_cast hlen
    have hsum0 : 0 ≤ ((trailingWindow events b s).map
        (fun b2 => (eventCount events b2 s : ℚ))).sum :=
      List.sum_nonneg (fun x hx => (hmem x hx).1)
    have hsumM : ((trailingWindow events b s).map
        (fun b2 => (eventCount events b2 s : ℚ))).sum ≤
        ((trailingWindow events b s).length : ℚ) * (maxCount events s : ℚ) := by
      have := List.sum_le_card_nsmul
        ((trailingWindow events b s).map (fun b2 => (eventCount events b2 s : ℚ)))
        ((maxCount events s : ℚ)) (fun x hx => (hmem x hx).2)
      rw [List.length_map] at this
      simpa [nsmul_eq_mul] using this
    constructor
    · have h0 : (0 : ℚ) ≤ ((trailingWindow events b s).map
          (fun b2 => (eventCount events b2 s : ℚ))).sum /
          ((trailingWindow events b s).length : ℚ) :=
        div_nonneg hsum0 (le_of_lt hlenq)
      have := roundTo_mono 2 h0
      rw [show roundTo 2 ((0 : ℚ)) = 0 by
        rw [show ((0 : ℚ)) = ((0 : ℕ) : ℚ) by norm_num, roundTo_natCast]] at this
      exact this
    · have hM : ((trailingWindow events b s).map
          (fun b2 => (eventCount events b2 s : ℚ))).sum /
          ((trailingWindow events b s).length : ℚ) ≤ (maxCount events s : ℚ) := by
        rw [div_le_iff₀ hlenq]
        calc ((trailingWindow events b s).map
            (fun b2 => (eventCount events b2 s : ℚ))).sum
            ≤ ((trailingWindow events b s).length : ℚ) * (maxCount events s : ℚ) :=
              hsumM
          _ = (maxCount events s : ℚ) * ((trailingWindow events b s).length : ℚ) := by
              ring
      have := roundTo_mono 2 hM
      rw [roundTo_natCast] at this
      exact this

/-- Witness for C4 at the concrete two-bucket partition: the moving
average at the first bucket is that bucket's own count. -/
theorem trend_moving_avg_witness :
    Analytics.movingAvg7h trendExample 0 "low" =
      (Analytics.eventCount trendExample 0 "low" : ℚ) :=
  (trend_moving_avg trendExample "low").2.2.1 0 [1] (by decide)

lemma charListLE_cons_iff (a b : Char) (as bs : List Char) :
    charListLE (a :: as) (b :: bs) = true ↔
      (a < b ∨ (a = b ∧ charListLE as bs = true)) := by
  show (if a < b then true else if b < a then false else charListLE as bs) = true ↔ _
  rcases lt_trichotomy a b with h | h | h
  · simp [h]
  · subst h
    simp [lt_irrefl]
  · rw [if_neg (asymm h), if_pos h]
    simp [asymm h, (ne_of_gt h : a ≠ b)]

lemma charListLE_total : ∀ as bs : List Char,
    charListLE as bs = true ∨ charListLE bs as = true := by
  intro as
  induction as with
  | nil => exact fun bs => Or.inl rfl
  | cons a as ih =>
    intro bs
    cases bs with
    | nil => exact Or.inr rfl
    | cons b bs =>
      rw [charListLE_cons_iff, charListLE_cons_iff]
      rcases lt_trichotomy a b with h | h | h
      · exact Or.inl (Or.inl h)
      · subst h
        rcases ih bs with h2 | h2
        · exact Or.inl (Or.inr ⟨rfl, h2⟩)
        · exact Or.inr (Or.inr ⟨rfl, h2⟩)
      · exact Or.inr (Or.inl h)

lemma charListLE_trans : ∀ as bs cs : List Char,
    charListLE as bs = true → charListLE bs cs = true →
    charListLE as cs = true := by
  intro as
  induction as with
  | nil => exact fun bs cs _ _ => rfl
  | cons a as ih =>
    intro bs cs h1 h2
    cases bs with
    | nil => simp [charListLE] at h1
    | cons b bs =>
      cases cs with
      | nil => simp [charListLE] at h2
      | cons c cs =>
        rw [charListLE_cons_iff] at h1 ⊢
        rw [charListLE_cons_iff] at h2
        rcases h1 with h1 | ⟨rfl, h1⟩
        · rcases h2 with h2 | ⟨rfl, h2⟩
          · exact Or.inl (lt_trans h1 h2)
          · exact Or.inl h1
        · rcases h2 with h2 | ⟨rfl, h2⟩
          · exact Or.inl h2
          · exact Or.inr ⟨rfl, ih bs cs h1 h2⟩

namespace Analytics

lemma trendOrder_trans (a b c : TrendRow) :
    trendOrder a b → trendOrder b c → trendOrder a c := by
  intro h1 h2
  unfold trendOrder at *
  rcases h1 with h1 | ⟨e1, s1⟩ <;> rcases h2 with h2 | ⟨e2, s2⟩
  · exact Or.inl (lt_trans h1 h2)
  · exact Or.inl (e2 ▸ h1)
  · exact Or.inl (e1 ▸ h2)
  · exact Or.inr ⟨e1.trans e2, charListLE_trans _ _ _ s1 s2⟩

lemma trendOrder_total (a b : TrendRow) : trendOrder a b ∨ trendOrder b a := by
  unfold trendOrder
  rcases lt_trichotomy a.hourBucket b.hourBucket with h | h | h
  · exact Or.inl (Or.inl h)
  · rcases charListLE_total a.severity.data b.severity.data with h2 | h2
    · exact Or.inl (Or.inr ⟨h, h2⟩)
    · exact Or.inr (Or.inr ⟨h.symm, h2⟩)
  · exact Or.inr (Or.inl h)

lemma getSeverityTrend_eq (events : List SecurityEvent) (limit : Nat) (m : Int)
    (hm : maxBucket events = (m : WithBot Int)) :
    getSeverityTrend events limit =
      List.insertionSort trendOrder
        (((hourlyGroups events).filter
            (fun p => decide (m - (limit : Int) ≤ p.1))).map
          (trendRow events)) := by
  unfold getSeverityTrend
  rw [hm]

end Analytics

/-- C5: `get_severity_trend` returns exactly the grouped
`(bucket, severity)` rows whose bucket is at or after the maximum
bucket of the full grouped data minus the lookback, sorted by bucket
ascending then severity; the empty event set produces the empty
sequence. -/
theorem trend_cutoff_sorted (events : List SecurityEvent) (N : Nat) :
    (Analytics.getSeverityTrend [] N = []) ∧
    (∀ m : Int, maxBucket events = (m : WithBot Int) →
      (m ∈ (hourlyGroups events).map Prod.fst ∧
        ∀ p ∈ hourlyGroups events, p.1 ≤ m) ∧
      (∀ row : TrendRow, row ∈ getSeverityTrend events N ↔
        ∃ p ∈ hourlyGroups events,
          m - (N : Int) ≤ p.1 ∧ row = trendRow events p)) ∧
    (getSeverityTrend events N).Pairwise trendOrder := by
  refine ⟨rfl, fun m hm => ⟨?_, fun row => ?_⟩, ?_⟩
  · have h := List.maximum_eq_coe_iff.mp hm
    exact ⟨h.1, fun p hp => h.2 p.1 (List.mem_map_of_mem _ hp)⟩
  · rw [getSeverityTrend_eq events N m hm,
      (List.perm_insertionSort _ _).mem_iff, List.mem_map]
    constructor
    · rintro ⟨p, hp, rfl⟩
      rw [List.mem_filter] at hp
      exact ⟨p, hp.1, of_decide_eq_true hp.2, rfl⟩
    · rintro ⟨p, hp, hcut, rfl⟩
      exact ⟨p, List.mem_filter.mpr ⟨hp, decide_eq_true hcut⟩, rfl⟩
  · rcases hmm : maxBucket events with _ | m
    · have hempty : getSeverityTrend events N = [] := by
        unfold getSeverityTrend
        rw [hmm]
      rw [hempty]
      exact List.Pairwise.nil
    · rw [getSeverityTrend_eq events N m hmm]
      haveI : IsTotal TrendRow trendOrder := ⟨trendOrder_total⟩
      haveI : IsTrans TrendRow trendOrder := ⟨trendOrder_trans⟩
      exact List.sorted_insertionSort _ _

/-- Witness for C5 at the concrete two-bucket data: the row of the old
bucket is inside the default 168-hour lookback. -/
theorem trend_cutoff_sorted_witness :
    Analytics.trendRow trendExample (0, "low") ∈
      Analytics.getSeverityTrend trendExample 168 :=
  (((trend_cutoff_sorted trendExample 168).2.1 1 (by decide)).2 _).mpr
    ⟨(0, "low"), by decide, by decide, rfl⟩

namespace Analytics

/-! ### `get_recent_events` (analytics.py lines 166–217)

The route builds a `WHERE` clause as the `AND` of the supplied equality
filters, counts matching rows, computes
`total_pages = (total + page_size - 1) // page_size if total else 0`,
and returns the slice `ORDER BY timestamp DESC LIMIT page_size OFFSET
(page - 1) * page_size`. -/

/-- Python truthiness of an optional query parameter: `if severity:` is
false for `None` and for the empty string, so only a non-empty value
adds a filter. -/
def filterActive : Option String → Bool
  | none => false
  | some s => !s.isEmpty

/-- The `WHERE` clause: the conjunction of the supplied equality
filters. -/
def matchesFilters (sev evType : Option String) (e : SecurityEvent) : Bool :=
  (if filterActive sev then decide (e.severity = sev.getD "") else true) &&
    (if filterActive evType then decide (e.eventType = evType.getD "") else true)

/-- The records matching the filters. -/
def filteredEvents (events : List SecurityEvent) (sev evType : Option String) :
    List SecurityEvent :=
  events.filter (matchesFilters sev evType)

/-- `SELECT COUNT(*) FROM security_events {where}` via `execute_scalar`. -/
def totalCount (events : List SecurityEvent) (sev evType : Option String) : Nat :=
  (filteredEvents events sev evType).length

/-- The matching records in `ORDER BY timestamp DESC` order. -/
def orderedEvents (events : List SecurityEvent) (sev evType : Option String) :
    List SecurityEvent :=
  List.insertionSort (fun a b => b.timestamp ≤ a.timestamp)
    (filteredEvents events sev evType)

/-- `LIMIT page_size OFFSET (page - 1) * page_size`. -/
def pageData (events : List SecurityEvent) (sev evType : Option String)
    (page pageSize : Nat) : List SecurityEvent :=
  ((orderedEvents events sev evType).drop ((page - 1) * pageSize)).take pageSize

/-- `total_pages = (total + page_size - 1) // page_size if total else 0`. -/
def totalPages (events : List SecurityEvent) (sev evType : Option String)
    (pageSize : Nat) : Nat :=
  if totalCount events sev evType = 0 then 0
  else (totalCount events sev evType + pageSize - 1) / pageSize

end Analytics

/-- 25 events with distinct timestamps (the spec's 25-record example). -/
def pagEvents : List SecurityEvent :=
  (List.range 25).map (fun i => mkEvt "a" (i : Int))

lemma flatten_chunks {α : Type*} (l : List α) (k : Nat) (n : Nat) :
    ((List.range n).map (fun i => (l.drop (i * k)).take k)).flatten =
      l.take (n * k) := by
  induction n with
  | zero => simp
  | succ n ih =>
    rw [List.range_succ, List.map_append, List.flatten_append]
    simp only [List.map_cons, List.map_nil, List.flatten_cons, List.flatten_nil,
      List.append_nil]
    rw [ih, Nat.succ_mul, List.take_add]

namespace Analytics

lemma totalCount_le_pages_mul (events : List SecurityEvent)
    (sev evType : Option String) {pageSize : Nat} (hps : 0 < pageSize) :
    totalCount events sev evType ≤ totalPages events sev evType pageSize * pageSize := by
  have hceil : totalCount events sev evType ≤
      pageSize * (totalCount events sev evType ⌈/⌉ pageSize) := by
    have := le_smul_ceilDiv (b := totalCount events sev evType) hps
    simpa [smul_eq_mul] using this
  unfold totalPages
  by_cases h : totalCount events sev evType = 0
  · rw [if_pos h, h]
    omega
  · rw [if_neg h]
    rw [Nat.ceilDiv_eq_add_pred_div] at hceil
    rw [mul_comm]
    exact hceil

end Analytics

/-- C7: `get_recent_events` reports `total_pages = ceil(total /
page_size)` over the records matching the conjunction of the supplied
filters, serves each page as the slice of length at most `page_size` at
offset `(page - 1) * page_size` of the matching records in descending
timestamp order, and concatenating pages 1 through `total_pages`
reproduces every matching record exactly once in that order; with page
size 10 and 25 matching records there are 3 pages and page 3 holds 5
records. -/
theorem pagination_complete (events : List SecurityEvent)
    (sev evType : Option String) (pageSize : Nat) (hps : 0 < pageSize) :
    (totalPages events sev evType pageSize =
      totalCount events sev evType ⌈/⌉ pageSize) ∧
    (∀ page : Nat, pageData events sev evType page pageSize =
      ((orderedEvents events sev evType).drop ((page - 1) * pageSize)).take
        pageSize) ∧
    (∀ page : Nat, (pageData events sev evType page pageSize).length ≤ pageSize) ∧
    ((orderedEvents events sev evType).Perm (filteredEvents events sev evType)) ∧
    ((orderedEvents events sev evType).Pairwise
      (fun a b => b.timestamp ≤ a.timestamp)) ∧
    (((List.range (totalPages events sev evType pageSize)).map
        (fun i => pageData events sev evType (i + 1) pageSize)).flatten =
      orderedEvents events sev evType) ∧
    (totalPages pagEvents none none 10 = 3 ∧
      (pageData pagEvents none none 3 10).length = 5) := by
  refine ⟨?_, fun page => rfl, fun page => List.length_take_le _ _,
    List.perm_insertionSort _ _, ?_, ?_, by decide, by decide⟩
  · unfold totalPages
    by_cases h : totalCount events sev evType = 0
    · rw [if_pos h, h]
      simp
    · rw [if_neg h, Nat.ceilDiv_eq_add_pred_div]
  · haveI : IsTotal SecurityEvent (fun a b => b.timestamp ≤ a.timestamp) :=
      ⟨fun a b => Int.le_total _ _⟩
    haveI : IsTrans SecurityEvent (fun a b => b.timestamp ≤ a.timestamp) :=
      ⟨fun a b c h1 h2 => Int.le_trans h2 h1⟩
    exact List.sorted_insertionSort _ _
  · have hmap : (List.range (totalPages events sev evType pageSize)).map
        (fun i => pageData events sev evType (i + 1) pageSize) =
        (List.range (totalPages events sev evType pageSize)).map
          (fun i => ((orderedEvents events sev evType).drop (i * pageSize)).take
            pageSize) := by
      refine List.map_congr_left (fun i _ => ?_)
      unfold pageData
      norm_num
    rw [hmap, flatten_chunks]
    refine List.take_of_length_le ?_
    have hlen : (orderedEvents events sev evType).length =
        totalCount events sev evType :=
      (List.perm_insertionSort _ _).length_eq
    rw [hlen]
    exact totalCount_le_pages_mul events sev evType hps

/-- Witness for C7 at the 25-record example with page size 10. -/
theorem pagination_complete_witness :
    Analytics.totalPages pagEvents none none 10 = 3 :=
  (pagination_complete pagEvents none none 10 (by decide)).2.2.2.2.2.2.1

namespace Analytics

/-! ### `get_kpis` (analytics.py lines 43–64)

The route runs `SELECT * FROM v_kpi_summary` with `fetch_all=False`
and, when no row comes back, returns a dictionary with every numeric
field set to 0. -/

/-- The KPI summary record served by `/kpis` (its field names are the
keys of the route's dictionary). -/
structure KpiSummary where
  total_events : Nat
  critical_events : Nat
  high_events : Nat
  medium_events : Nat
  low_events : Nat
  avg_severity_score : ℚ
  unique_source_ips : Nat
  unique_dest_ips : Nat
  unique_event_types : Nat
  unique_threat_categories : Nat
  events_last_24h : Nat
  severe_last_24h : Nat
  avg_events_per_hour : ℚ
deriving DecidableEq, Repr

/-- The all-zero record `get_kpis` returns when the query yields no
row. -/
def zeroKpis : KpiSummary :=
  { total_events := 0, critical_events := 0, high_events := 0
    medium_events := 0, low_events := 0, avg_severity_score := 0
    unique_source_ips := 0, unique_dest_ips := 0, unique_event_types := 0
    unique_threat_categories := 0, events_last_24h := 0, severe_last_24h := 0
    avg_events_per_hour := 0 }

/-- The seconds the dataset spans (max timestamp minus min timestamp,
0 when empty). -/
def spanSeconds (events : List SecurityEvent) : Int :=
  match events.map (fun e => e.timestamp) with
  | [] => 0
  | t :: ts => ts.foldl max t - ts.foldl min t

/-- Modelled from the spec: the view `v_kpi_summary` queried by
`get_kpis` is not among the repository's source files (only the query
`SELECT * FROM v_kpi_summary` is); §4.5 of the spec defines the
aggregation the view performs.  `now` is the reference instant of the
trailing-24-hour window. -/
def kpiSummary (now : Int) (events : List SecurityEvent) : KpiSummary :=
  { total_events := events.length
    critical_events := events.countP (fun e => decide (e.severity = "critical"))
    high_events := events.countP (fun e => decide (e.severity = "high"))
    medium_events := events.countP (fun e => decide (e.severity = "medium"))
    low_events := events.countP (fun e => decide (e.severity = "low"))
    avg_severity_score :=
      if events.length = 0 then 0
      else ((events.map (fun e => (e.severityScore : ℚ))).sum) / (events.length : ℚ)
    unique_source_ips := ((events.map (fun e => e.sourceIp)).dedup).length
    unique_dest_ips := ((events.map (fun e => e.destinationIp)).dedup).length
    unique_event_types := ((events.map (fun e => e.eventType)).dedup).length
    unique_threat_categories :=
      ((events.map (fun e => e.threatCategory)).dedup).length
    events_last_24h :=
      events.countP (fun e => decide (now - 24 * 3600 ≤ e.timestamp))
    severe_last_24h :=
      events.countP (fun e => decide ((now - 24 * 3600 ≤ e.timestamp) ∧
        (e.severity = "high" ∨ e.severity = "critical")))
    avg_events_per_hour :=
      if events.length = 0 then 0
      else (events.length : ℚ) / ((spanSeconds events : ℚ) / 3600) }

/-- `get_kpis`: serve the view's single row, or the all-zero record
when the query returns no row. -/
def getKpis (rowFromView : Option KpiSummary) : KpiSummary :=
  match rowFromView with
  | none => zeroKpis
  | some r => r

end Analytics

/-- C8: on the empty event set the KPI summary is the record whose
numeric fields are all 0 — both when the (spec-modelled) view
aggregates the empty set and when the route's fallback fires because
the query returned no row. -/
theorem kpis_empty_all_zero (now : Int) :
    kpiSummary now [] = zeroKpis ∧
    getKpis none = zeroKpis ∧
    getKpis (some (kpiSummary now [])) = zeroKpis := by
  refine ⟨rfl, rfl, rfl⟩

namespace Db

/-! ### `database.py` (lines 37–76)

`execute_query` and `execute_scalar` both call `get_connection()`
(which raises when nothing can be handed out), run the cursor body
inside `try:`, and call `release_connection(conn)` in the `finally:`
block, so the connection goes back to the pool on success and on an
exception alike. -/

/-- The state of the `ThreadedConnectionPool`: the free connections and
the connections currently checked out, as tokens. -/
structure PoolState where
  available : List Nat
  checkedOut : List Nat
deriving DecidableEq, Repr

/-- A Python exception surfaced by the database layer. -/
inductive DbError where
  | poolExhausted
  | queryFailed
deriving DecidableEq, Repr

/-- `get_connection` / `pool.getconn()`: hand out a free connection,
raising when none is available. -/
def get_connection (p : PoolState) : Except DbError (Nat × PoolState) :=
  match p.available with
  | [] => Except.error DbError.poolExhausted
  | c :: rest =>
      Except.ok (c, { available := rest, checkedOut := c :: p.checkedOut })

/-- `release_connection` / `pool.putconn(conn)`: return a connection to
the pool. -/
def release_connection (p : PoolState) (c : Nat) : PoolState :=
  { available := c :: p.available, checkedOut := p.checkedOut.erase c }

/-- `execute_query`: acquire a connection, run the cursor body — which
returns rows or raises — and release the connection in the `finally:`
block; the body's outcome (value or exception) is what the caller
sees. -/
def execute_query {α : Type} (p : PoolState) (run : Nat → Except DbError α) :
    Except DbError α × PoolState :=
  match get_connection p with
  | Except.error e => (Except.error e, p)
  | Except.ok (c, p1) => (run c, release_connection p1 c)

/-- `execute_scalar`: the same acquire / `try` / `finally` shape as
`execute_query`, returning a single scalar. -/
def execute_scalar {β : Type} (p : PoolState) (run : Nat → Except DbError β) :
    Except DbError β × PoolState :=
  match get_connection p with
  | Except.error e => (Except.error e, p)
  | Except.ok (c, p1) => (run c, release_connection p1 c)

end Db

/-- C9: every query execution returns its pooled connection on every
exit path: whatever the cursor body does — return rows, return a
scalar, or raise — the set of checked-out connections after
`execute_query` or `execute_scalar` equals the set before the call,
and the caller sees exactly the body's outcome. -/
theorem pool_released_on_every_path {α β : Type} (p : Db.PoolState)
    (run : Nat → Except Db.DbError α) (run2 : Nat → Except Db.DbError β) :
    ((Db.execute_query p run).2.checkedOut = p.checkedOut) ∧
    ((Db.execute_scalar p run2).2.checkedOut = p.checkedOut) ∧
    (∀ c rest, p.available = c :: rest →
      (Db.execute_query p run).1 = run c) ∧
    (p.available = [] →
      (Db.execute_query p run).1 = Except.error Db.DbError.poolExhausted) := by
  obtain ⟨avail, co⟩ := p
  cases avail with
  | nil =>
    refine ⟨rfl, rfl, ?_, fun _ => rfl⟩
    intro c rest h
    exact absurd h (by simp)
  | cons c rest =>
    refine ⟨?_, ?_, ?_, ?_⟩
    · simp [Db.execute_query, Db.get_connection, Db.release_connection]
    · simp [Db.execute_scalar, Db.get_connection, Db.release_connection]
    · intro c2 rest2 h
      cases h
      rfl
    · intro h
      exact absurd h (by simp)

namespace Seed

/-! ### `db/seed.py` — the synthetic-event generator

`generate_event` draws every field with `random.*` calls over fixed
data pools.  The embedding takes a `RandomOracle` carrying one outcome
per draw; `random.randint`/`random.choice` reduce the raw draw into
the required range or list. -/

/-- `EVENT_TYPES` from seed.py. -/
def EVENT_TYPES : List String :=
  ["intrusion_attempt", "malware_detected", "phishing_email",
   "ddos_attack", "data_exfiltration", "brute_force",
   "lateral_movement", "privilege_escalation", "port_scan",
   "sql_injection", "xss_attack", "dns_tunneling",
   "ransomware", "credential_stuffing", "insider_threat",
   "unauthorized_access"]

/-- `THREAT_CATEGORIES` from seed.py. -/
def THREAT_CATEGORIES : List String :=
  ["network_intrusion", "malware", "social_engineering",
   "denial_of_service", "data_breach", "authentication_attack",
   "web_application", "advanced_persistent_threat",
   "insider_threat", "reconnaissance"]

/-- `SEVERITIES` from seed.py: each tier label with the inclusive
bounds of its severity-score sub-range. -/
def SEVERITIES : List (String × Nat × Nat) :=
  [("low", 1, 3), ("medium", 4, 5), ("high", 6, 8), ("critical", 9, 10)]

/-- `PROTOCOLS` from seed.py. -/
def PROTOCOLS : List String :=
  ["TCP", "UDP", "ICMP", "HTTP", "HTTPS", "DNS", "SSH", "FTP"]

/-- `ACTIONS` from seed.py. -/
def ACTIONS : List String :=
  ["logged", "blocked", "quarantined", "alerted", "investigated"]

/-- `COUNTRIES` from seed.py. -/
def COUNTRIES : List String :=
  ["US", "CN", "RU", "DE", "BR", "IN", "GB", "FR", "KR", "JP",
   "NL", "UA", "IR", "VN", "ID", "NG", "RO", "PK", "TH", "AR"]

/-- The destination-port pool drawn inside `generate_event`. -/
def DST_PORTS : List Nat :=
  [22, 53, 80, 443, 445, 1433, 3306, 3389, 5432, 8080, 8443]

/-- One outcome per `random.*` call `generate_event` makes.  The UUID
and the source/destination IPs (drawn from the randomly pre-generated
pools `EXTERNAL_IPS`/`INTERNAL_IPS`) are opaque string draws. -/
structure RandomOracle where
  sevChoice : Nat
  scoreDraw : Nat
  eventTypeIdx : Nat
  srcIp : String
  dstIp : String
  srcPortDraw : Nat
  dstPortIdx : Nat
  protocolIdx : Nat
  tsDraw : Nat
  rateDraw : Nat
  countDraw : Nat
  threatIdx : Nat
  actionIdx : Nat
  countryIdx : Nat
  uuid : String

/-- `random.randint(a, b)`: a draw reduced into the inclusive range
`[a, b]`. -/
def randint (a b k : Nat) : Nat :=
  a + k % (b - a + 1)

/-- `random.choice(lst)` (and `random.choices(lst, weights, k=1)[0]`,
whose weights only shape the distribution, not the support): a drawn
element of the non-empty list. -/
def randChoice {α : Type} (l : List α) (dflt : α) (i : Nat) : α :=
  l.getD (i % l.length) dflt

/-- `DESCRIPTIONS.get(event_type, default).format(...)`: the template
of the event type instantiated with the drawn values. -/
def descriptionFor (eventType src dst : String) (port rate cnt : Nat) : String :=
  if eventType = "intrusion_attempt" then
    "Unauthorized access attempt detected from " ++ src ++
      " targeting port " ++ toString port
  else if eventType = "malware_detected" then
    "Malicious payload identified in network traffic from " ++ src
  else if eventType = "phishing_email" then
    "Phishing email with malicious link detected from " ++ src
  else if eventType = "ddos_attack" then
    "High-volume traffic flood detected from " ++ src ++ " (" ++
      toString rate ++ " pps)"
  else if eventType = "data_exfiltration" then
    "Unusual data transfer volume from " ++ src ++ " to external endpoint"
  else if eventType = "brute_force" then
    "Multiple failed authentication attempts from " ++ src ++ " (" ++
      toString cnt ++ " attempts)"
  else if eventType = "lateral_movement" then
    "Suspicious internal network traversal from " ++ src ++ " to " ++ dst
  else if eventType = "privilege_escalation" then
    "Unauthorized privilege elevation attempt detected on " ++ dst
  else if eventType = "port_scan" then
    "Sequential port scanning activity from " ++ src ++ " across " ++
      toString cnt ++ " ports"
  else if eventType = "sql_injection" then
    "SQL injection attempt detected in HTTP request from " ++ src
  else if eventType = "xss_attack" then
    "Cross-site scripting payload detected in request from " ++ src
  else if eventType = "dns_tunneling" then
    "Anomalous DNS query patterns from " ++ src ++
      " suggesting data exfiltration"
  else if eventType = "ransomware" then
    "Ransomware encryption behavior detected on " ++ dst
  else if eventType = "credential_stuffing" then
    "Credential reuse attack from " ++ src ++ " using " ++ toString cnt ++
      " unique credentials"
  else if eventType = "insider_threat" then
    "Anomalous user behavior detected from internal host " ++ src
  else if eventType = "unauthorized_access" then
    "Access to restricted resource from " ++ src ++
      " without valid credentials"
  else
    "Security event detected from " ++ src

/-- `generate_event` (seed.py lines 109–153): one synthetic security
event built from the oracle's draws.  The `user_agent` and `raw_log`
columns of the generated tuple are not fields of the embedded
`SecurityEvent` row. -/
def generate_event (baseTime : Int) (timeRangeSeconds : Nat)
    (o : RandomOracle) : SecurityEvent :=
  let sevChoice := randChoice SEVERITIES ("low", 1, 3) o.sevChoice
  let severityScore := randint sevChoice.2.1 sevChoice.2.2 o.scoreDraw
  let eventType := randChoice EVENT_TYPES "intrusion_attempt" o.eventTypeIdx
  let dstPort := randChoice DST_PORTS 22 o.dstPortIdx
  { eventId := o.uuid
    timestamp := baseTime + (randint 0 timeRangeSeconds o.tsDraw : Int)
    sourceIp := o.srcIp
    destinationIp := o.dstIp
    sourcePort := randint 1024 65535 o.srcPortDraw
    destinationPort := dstPort
    protocol := randChoice PROTOCOLS "TCP" o.protocolIdx
    eventType := eventType
    severity := sevChoice.1
    severityScore := severityScore
    description := descriptionFor eventType o.srcIp o.dstIp dstPort
      (randint 1000 100000 o.rateDraw) (randint 5 5000 o.countDraw)
    threatCategory := randChoice THREAT_CATEGORIES "network_intrusion" o.threatIdx
    actionTaken := randChoice ACTIONS "logged" o.actionIdx
    geoCountry := randChoice COUNTRIES "US" o.countryIdx }

end Seed

/-- The data-model invariant (spec §3): a severity score lies within
its tier's sub-range. -/
def scoreInTier (severity : String) (score : Nat) : Prop :=
  (severity = "low" → 1 ≤ score ∧ score ≤ 3) ∧
  (severity = "medium" → 4 ≤ score ∧ score ≤ 5) ∧
  (severity = "high" → 6 ≤ score ∧ score ≤ 8) ∧
  (severity = "critical" → 9 ≤ score ∧ score ≤ 10)

/-- C10: every event `generate_event` produces carries one of the four
severity tiers, and its severity score lies within that tier's
sub-range. -/
theorem generate_event_score_in_tier (baseTime : Int) (timeRange : Nat)
    (o : Seed.RandomOracle) :
    (Seed.generate_event baseTime timeRange o).severity ∈
      ["low", "medium", "high", "critical"] ∧
    scoreInTier (Seed.generate_event baseTime timeRange o).severity
      (Seed.generate_event baseTime timeRange o).severityScore := by
  have hsev : (Seed.generate_event baseTime timeRange o).severity =
      (Seed.SEVERITIES.getD (o.sevChoice % 4) ("low", 1, 3)).1 := rfl
  have hscore : (Seed.generate_event baseTime timeRange o).severityScore =
      Seed.randint (Seed.SEVERITIES.getD (o.sevChoice % 4) ("low", 1, 3)).2.1
        (Seed.SEVERITIES.getD (o.sevChoice % 4) ("low", 1, 3)).2.2 o.scoreDraw :=
    rfl
  have hmod : o.sevChoice % 4 = 0 ∨ o.sevChoice % 4 = 1 ∨
      o.sevChoice % 4 = 2 ∨ o.sevChoice % 4 = 3 := by omega
  rcases hmod with h | h | h | h
  · rw [hsev, hscore, h]
    unfold scoreInTier
    refine ⟨by decide, fun _ => ?_, fun hx => absurd hx (by decide),
      fun hx => absurd hx (by decide), fun hx => absurd hx (by decide)⟩
    show 1 ≤ Seed.randint 1 3 o.scoreDraw ∧ Seed.randint 1 3 o.scoreDraw ≤ 3
    unfold Seed.randint
    omega
  · rw [hsev, hscore, h]
    unfold scoreInTier
    refine ⟨by decide, fun hx => absurd hx (by decide), fun _ => ?_,
      fun hx => absurd hx (by decide), fun hx => absurd hx (by decide)⟩
    show 4 ≤ Seed.randint 4 5 o.scoreDraw ∧ Seed.randint 4 5 o.scoreDraw ≤ 5
    unfold Seed.randint
    omega
  · rw [hsev, hscore, h]
    unfold scoreInTier
    refine ⟨by decide, fun hx => absurd hx (by decide),
      fun hx => absurd hx (by decide), fun _ => ?_,
      fun hx => absurd hx (by decide)⟩
    show 6 ≤ Seed.randint 6 8 o.scoreDraw ∧ Seed.randint 6 8 o.scoreDraw ≤ 8
    unfold Seed.randint
    omega
  · rw [hsev, hscore, h]
    unfold scoreInTier
    refine ⟨by decide, fun hx => absurd hx (by decide),
      fun hx => absurd hx (by decide), fun hx => absurd hx (by decide),
      fun _ => ?_⟩
    show 9 ≤ Seed.randint 9 10 o.scoreDraw ∧ Seed.randint 9 10 o.scoreDraw ≤ 10
    unfold Seed.randint
    omega

/-- A concrete draw for every random call of `generate_event`. -/
def oracleExample : Seed.RandomOracle :=
  { sevChoice := 0, scoreDraw := 5, eventTypeIdx := 0, srcIp := "1.2.3.4"
    dstIp := "10.0.0.1", srcPortDraw := 0, dstPortIdx := 0, protocolIdx := 0
    tsDraw := 0, rateDraw := 0, countDraw := 0, threatIdx := 0, actionIdx := 0
    countryIdx := 0, uuid := "u" }

/-- Witness for C9: a one-connection pool serving a successful query. -/
theorem pool_released_on_every_path_witness :
    (Db.execute_query ⟨[7], []⟩ (fun c => Except.ok c)).1 = Except.ok 7 :=
  (pool_released_on_every_path ⟨[7], []⟩ (fun c => Except.ok c)
    (fun c => Except.ok c)).2.2.1 7 [] rfl

/-- Witness for C10: a concrete `low` draw scores within `[1, 3]`. -/
theorem generate_event_score_in_tier_witness :
    1 ≤ (Seed.generate_event 0 0 oracleExample).severityScore ∧
      (Seed.generate_event 0 0 oracleExample).severityScore ≤ 3 :=
  ((generate_event_score_in_tier 0 0 oracleExample).2).1 (by decide)
